import Mathlib

set_option maxRecDepth 4000

namespace FormApp

-- ===========================================================================
-- Format validators (src/script.js, VALIDATION_PATTERNS and emailValid /
-- phoneValid / zipValid).  Strings are modelled as `List Char`; the JS `\s`
-- class is modelled by `Char.isWhitespace` (all inputs in this development
-- are ASCII, where the two agree).
-- ===========================================================================

/-- Character class `[^\s@]` of the email pattern. -/
def emailChar (c : Char) : Bool := !c.isWhitespace && !(c == '@')

/-- Tail part `[^\s@]{2,}$` of the email pattern. -/
def emailTld (l : List Char) : Bool := decide (2 ≤ l.length) && l.all emailChar

/-- Part `[^\s@]+\.[^\s@]{2,}$` of the email pattern: some split at a dot. -/
def emailDomain (l : List Char) : Bool :=
  (List.range l.length).any fun j =>
    (l.getD j ' ' == '.') && decide (0 < j) && (l.take j).all emailChar &&
      emailTld (l.drop (j + 1))

/-- `emailValid` embeds the anchored regex `^[^\s@]+@[^\s@]+\.[^\s@]{2,}$`
from VALIDATION_PATTERNS.email: a string matches exactly when it can be
split as `local ++ '@' :: domain ++ '.' :: tld` with nonempty `local` and
`domain`, a `tld` of length at least 2, and all pieces inside the class
`[^\s@]`.  The index scan below is the executable denotation of that
existential over split points. -/
def emailValid (s : List Char) : Bool :=
  (List.range s.length).any fun i =>
    (s.getD i ' ' == '@') && decide (0 < i) && (s.take i).all emailChar &&
      emailDomain (s.drop (i + 1))

/-- String-level wrapper used by the page-1 field table. -/
def emailValidS (v : String) : Bool := emailValid v.data

/-- Separator class `[-.\s]` of the phone pattern. -/
def sepChar (c : Char) : Bool := (c == '-') || (c == '.') || c.isWhitespace

/-- An optional single character from a class: both the "skip" and (when the
head matches) the "consume" remainder, mirroring a `?` quantifier. -/
def optChar (p : Char → Bool) (l : List Char) : List (List Char) :=
  match l with
  | [] => [[]]
  | c :: rest => if p c then [c :: rest, rest] else [c :: rest]

/-- `\d{n}`: consume exactly `n` digits or fail. -/
def fixedDigits (n : Nat) (l : List Char) : List (List Char) :=
  if ((l.take n).length == n) && (l.take n).all Char.isDigit then [l.drop n] else []

/-- `[2-9]\d{2}`: the area-code core of the phone pattern. -/
def areaCode (l : List Char) : List (List Char) :=
  match l with
  | a :: b :: c :: rest =>
    if (decide ('2' ≤ a) && decide (a ≤ '9')) && b.isDigit && c.isDigit then [rest] else []
  | _ => []

/-- `phoneValid` embeds the anchored regex
`^[\+]?[1]?[-.\s]?\(?[2-9]\d{2}\)?[-.\s]?\d{3}[-.\s]?\d{4}$` from
VALIDATION_PATTERNS.phone, by chaining each optional piece over all choices
and asking whether some choice consumes the whole input. -/
def phoneValid (s : List Char) : Bool :=
  let s1 := optChar (fun c => c == '+') s
  let s2 := s1.flatMap (optChar (fun c => c == '1'))
  let s3 := s2.flatMap (optChar sepChar)
  let s4 := s3.flatMap (optChar (fun c => c == '('))
  let s5 := s4.flatMap areaCode
  let s6 := s5.flatMap (optChar (fun c => c == ')'))
  let s7 := s6.flatMap (optChar sepChar)
  let s8 := s7.flatMap (fixedDigits 3)
  let s9 := s8.flatMap (optChar sepChar)
  let s10 := s9.flatMap (fixedDigits 4)
  s10.any (fun l => l == [])

/-- String-level wrapper used by the page-1 field table. -/
def phoneValidS (v : String) : Bool := phoneValid v.data

/-- `zipValid` embeds the anchored regex `^\d{5}(-\d{4})?$` from
VALIDATION_PATTERNS.zipcode: exactly five digits, optionally followed by a
hyphen and exactly four more digits. -/
def zipValid (s : List Char) : Bool :=
  ((s.length == 5) && s.all Char.isDigit) ||
    ((s.length == 10) && (s.take 5).all Char.isDigit && (s.getD 5 ' ' == '-') &&
      (s.drop 6).all Char.isDigit)

/-- String-level wrapper used by the page-1 field table. -/
def zipValidS (v : String) : Bool := zipValid v.data

-- ===========================================================================
-- Small generic helpers used by the statements.
-- ===========================================================================

/-- Executable substring test: `pat` occurs contiguously inside `s`. -/
def containsSub (pat s : List Char) : Bool :=
  (List.range (s.length + 1)).any fun i => ((s.drop i).take pat.length) == pat

/-- The maximal suffix after the final dot of a string (the "TLD" of the
claims about the email validator). -/
def lastDotTail (s : List Char) : List Char :=
  ((s.reverse).takeWhile (fun c => !(c == '.'))).reverse

/-- JS `String.prototype.trim`: strip whitespace from both ends. -/
def trimChars (s : List Char) : List Char :=
  ((s.dropWhile Char.isWhitespace).reverse.dropWhile Char.isWhitespace).reverse

/-- JS `<` on strings: lexicographic comparison of code units, a proper
prefix being smaller.  Used by the date comparisons of page 3. -/
def strLt : List Char → List Char → Bool
  | [], [] => false
  | [], _ :: _ => true
  | _ :: _, [] => false
  | a :: as, b :: bs => if a < b then true else if b < a then false else strLt as bs

-- ===========================================================================
-- Session store (src/script.js, loadData / saveData, lines 22-42).
-- The stored values are flat objects mapping field names to strings or
-- booleans, which is the only shape the program ever writes.  The host's
-- JSON.stringify / JSON.parse pair is modelled concretely on that fragment:
-- the serializer below produces exactly the JSON.stringify output for such
-- an object (no whitespace, standard string escaping), and the parser below
-- accepts exactly that grammar, failing on anything else.  JSON inputs
-- outside this fragment (numbers, arrays, nesting, surrogate escapes) are
-- out of model; loadData maps any parse failure to the empty mapping, which
-- is the behavior of the try/catch in the source.
-- ===========================================================================

/-- A stored value: a string or a boolean (checkbox state). -/
inductive JVal where
  | s (v : String)
  | b (v : Bool)
deriving DecidableEq

/-- The accumulated application snapshot: an insertion-ordered flat mapping
from field names to values, as a JS object holds it. -/
abbrev Snapshot := List (String × JVal)

/-- The tab-scoped storage cell under the fixed key: absent or one string. -/
abbrev Store := Option String

/-- Opening brace character. -/
def obrace : Char := Char.ofNat 123

/-- Closing brace character. -/
def cbrace : Char := Char.ofNat 125

/-- Lower-case hex digit, as JSON.stringify emits in \u escapes. -/
def hexDigitChar (n : Nat) : Char :=
  if n < 10 then Char.ofNat (48 + n) else Char.ofNat (87 + n)

/-- JSON.stringify escaping of one character inside a string literal. -/
def escapeChar (c : Char) : List Char :=
  if c = '"' then ['\\', '"']
  else if c = '\\' then ['\\', '\\']
  else if c = Char.ofNat 8 then ['\\', 'b']
  else if c = Char.ofNat 9 then ['\\', 't']
  else if c = Char.ofNat 10 then ['\\', 'n']
  else if c = Char.ofNat 12 then ['\\', 'f']
  else if c = Char.ofNat 13 then ['\\', 'r']
  else if c.toNat < 32 then
    ['\\', 'u', '0', '0', hexDigitChar (c.toNat / 16), hexDigitChar (c.toNat % 16)]
  else [c]

/-- Serialization of one stored value. -/
def serializeVal : JVal → List Char
  | .s v => '"' :: v.data.flatMap escapeChar ++ ['"']
  | .b true => ['t', 'r', 'u', 'e']
  | .b false => ['f', 'a', 'l', 's', 'e']

/-- Serialization of one `"key":value` member. -/
def serializeEntry (e : String × JVal) : List Char :=
  '"' :: e.1.data.flatMap escapeChar ++ '"' :: ':' :: serializeVal e.2

/-- Comma-separated members of the object body. -/
def serializeEntries : Snapshot → List Char
  | [] => []
  | [e] => serializeEntry e
  | e :: f :: es => serializeEntry e ++ ',' :: serializeEntries (f :: es)

/-- JSON.stringify of a flat string/boolean object. -/
def stringifyObj (m : Snapshot) : List Char :=
  obrace :: serializeEntries m ++ [cbrace]

/-- Value of one hex digit, accepting both letter cases as JSON.parse does. -/
def parseHex (c : Char) : Option Nat :=
  if 48 ≤ c.toNat ∧ c.toNat ≤ 57 then some (c.toNat - 48)
  else if 97 ≤ c.toNat ∧ c.toNat ≤ 102 then some (c.toNat - 87)
  else if 65 ≤ c.toNat ∧ c.toNat ≤ 70 then some (c.toNat - 55)
  else none

/-- The single-character JSON escapes. -/
def unescapeChar (c : Char) : Option Char :=
  if c = '"' then some '"'
  else if c = '\\' then some '\\'
  else if c = '/' then some '/'
  else if c = 'b' then some (Char.ofNat 8)
  else if c = 't' then some (Char.ofNat 9)
  else if c = 'n' then some (Char.ofNat 10)
  else if c = 'f' then some (Char.ofNat 12)
  else if c = 'r' then some (Char.ofNat 13)
  else none

/-- Parse the body of a JSON string literal after its opening quote, up to
and including the closing quote; returns the decoded content and the rest of
the input.  The fuel only has to dominate the number of decoded characters;
every step consumes at least one input character. -/
def parseStringBody : Nat → List Char → Option (List Char × List Char)
  | 0, _ => none
  | _ + 1, [] => none
  | fuel + 1, c :: rest =>
    if c = '"' then some ([], rest)
    else if c = '\\' then
      match rest with
      | [] => none
      | e :: rest2 =>
        if e = 'u' then
          match rest2 with
          | h1 :: h2 :: h3 :: h4 :: rest3 =>
            match parseHex h1, parseHex h2, parseHex h3, parseHex h4 with
            | some n1, some n2, some n3, some n4 =>
              match parseStringBody fuel rest3 with
              | some (s, r) =>
                some (Char.ofNat (((n1 * 16 + n2) * 16 + n3) * 16 + n4) :: s, r)
              | none => none
            | _, _, _, _ => none
          | _ => none
        else
          match unescapeChar e with
          | some d =>
            match parseStringBody fuel rest2 with
            | some (s, r) => some (d :: s, r)
            | none => none
          | none => none
    else if c.toNat < 32 then none
    else
      match parseStringBody fuel rest with
      | some (s, r) => some (c :: s, r)
      | none => none

/-- Parse one JSON value of the stored fragment: a string, true, or false. -/
def parseVal (l : List Char) : Option (JVal × List Char) :=
  match l with
  | [] => none
  | c :: rest =>
    if c = '"' then
      match parseStringBody (rest.length + 1) rest with
      | some (s, r) => some (.s (String.mk s), r)
      | none => none
    else if c = 't' then
      match rest with
      | r1 :: r2 :: r3 :: r => if r1 = 'r' ∧ r2 = 'u' ∧ r3 = 'e' then some (.b true, r) else none
      | _ => none
    else if c = 'f' then
      match rest with
      | r1 :: r2 :: r3 :: r4 :: r =>
        if r1 = 'a' ∧ r2 = 'l' ∧ r3 = 's' ∧ r4 = 'e' then some (.b false, r) else none
      | _ => none
    else none

/-- Parse a nonempty comma-separated member list followed by the closing
brace; returns the members and the input after the brace.  The fuel only has
to dominate the number of members. -/
def parseEntries : Nat → List Char → Option (Snapshot × List Char)
  | 0, _ => none
  | _ + 1, [] => none
  | fuel + 1, c :: rest =>
    if c = '"' then
      match parseStringBody (rest.length + 1) rest with
      | some (k, r1) =>
        match r1 with
        | [] => none
        | d :: r2 =>
          if d = ':' then
            match parseVal r2 with
            | some (v, r3) =>
              match r3 with
              | [] => none
              | d2 :: r4 =>
                if d2 = ',' then
                  match parseEntries fuel r4 with
                  | some (ms, r5) => some ((String.mk k, v) :: ms, r5)
                  | none => none
                else if d2 = cbrace then some ([(String.mk k, v)], r4)
                else none
            | none => none
          else none
      | none => none
    else none

/-- Parse a whole serialized flat object; the entire input must be consumed,
as JSON.parse rejects trailing garbage. -/
def parseObj (l : List Char) : Option Snapshot :=
  match l with
  | [] => none
  | c :: rest =>
    if c = obrace then
      match rest with
      | [] => none
      | d :: rest2 =>
        if d = cbrace then (if rest2 = [] then some [] else none)
        else
          match parseEntries rest.length rest with
          | some (m, r) => if r = [] then some m else none
          | none => none
    else none

/-- `loadData` (src/script.js lines 22-30): read the serialized snapshot
from the store; an absent key or a falsy (empty) stored string yields the
empty mapping via `stored ? JSON.parse(stored) : {}`, and a parse failure is
caught and also yields the empty mapping. -/
def loadData (st : Store) : Snapshot :=
  match st with
  | none => []
  | some s =>
    if s = "" then []
    else
      match parseObj s.data with
      | some m => m
      | none => []

/-- `saveData` (src/script.js lines 36-42): serialize the given mapping
(a missing/undefined argument is treated as the empty mapping by
`obj || {}` inside JSON.stringify's view of the value being `undefined`;
here `none` plays that role) and write it under the fixed key.  `ok = false`
models a throwing `setItem` (quota exceeded): the failure is swallowed and
the store is left unchanged. -/
def saveData (obj : Option Snapshot) (ok : Bool) (st : Store) : Store :=
  if ok then some (String.mk (stringifyObj (match obj with | some m => m | none => []))) else st

-- ===========================================================================
-- DOM model.  A page holds form controls (addressable by id) and error
-- message slots (addressable by id, by convention err-<fieldId>).  An absent
-- element is `none`.  Only the properties the program reads or writes are
-- modelled: a control's type/value/checked state, a slot's text, its
-- "hidden" class and its alert role.
-- ===========================================================================

/-- An error-message span: its text, whether the `hidden` class is present,
and whether it carries `role="alert"`. -/
structure Slot where
  text : String
  hidden : Bool
  alert : Bool
deriving DecidableEq

/-- A form control: checkbox flag, `value`, and `checked` state. -/
structure Control where
  isCheckbox : Bool
  value : String
  checked : Bool
deriving DecidableEq

/-- The page's element table. -/
@[ext] structure Dom where
  controls : String → Option Control
  slots : String → Option Slot

/-- `getValue` (src/script.js lines 49-56): value of a control by id, `""`
when absent; checkboxes yield `value || 'true'` when checked and `""`
otherwise; other controls yield the trimmed value. -/
def getValue (d : Dom) (id : String) : String :=
  match d.controls id with
  | none => ""
  | some el =>
    if el.isCheckbox then (if el.checked then (if el.value = "" then "true" else el.value) else "")
    else String.mk (trimChars el.value.data)

/-- `showError` (src/script.js lines 67-74): set the slot's text, drop the
`hidden` class, add the alert role; a no-op when the slot is absent. -/
def showError (d : Dom) (id msg : String) : Dom :=
  { d with slots := fun i => if i = id then (d.slots id).map (fun _ => ⟨msg, false, true⟩) else d.slots i }

/-- `clearError` (src/script.js lines 80-87): empty the slot's text, add the
`hidden` class, remove the alert role; a no-op when the slot is absent. -/
def clearError (d : Dom) (id : String) : Dom :=
  { d with slots := fun i => if i = id then (d.slots id).map (fun _ => ⟨"", true, false⟩) else d.slots i }

-- ===========================================================================
-- Page validators.  Each returns the transformed page together with the
-- navigation target chosen on success (`window.location.href = ...`),
-- `none` when navigation is blocked.
-- ===========================================================================

/-- One row of the page-1 required-field table. -/
structure Field where
  id : String
  msg : String
  validator : Option (String → Bool)

/-- The `requiredFields` table of validatePage1 (src/script.js 164-174). -/
def page1Fields : List Field :=
  [⟨"firstName", "First name is required.", none⟩,
   ⟨"lastName", "Last name is required.", none⟩,
   ⟨"email", "Valid email is required.", some emailValidS⟩,
   ⟨"phone", "Valid phone number is required.", some phoneValidS⟩,
   ⟨"address1", "Street address is required.", none⟩,
   ⟨"city", "City is required.", none⟩,
   ⟨"state", "State is required.", none⟩,
   ⟨"zip", "Valid 5-digit ZIP code is required.", some zipValidS⟩,
   ⟨"position", "Please select a position.", none⟩]

/-- The body of validatePage1's forEach (src/script.js 177-185): clear the
field's error slot, read the value, and on a missing value or failing
attached validator show the field's message and drop the valid flag. -/
def checkField (acc : Dom × Bool) (f : Field) : Dom × Bool :=
  let d := clearError acc.1 ("err-" ++ f.id)
  let v := getValue d f.id
  let bad := (v == "") || (match f.validator with | some vf => !(vf v) | none => false)
  if bad then (showError d ("err-" ++ f.id) f.msg, false) else (d, acc.2)

/-- The failure condition of one page-1 field, read off the page's controls:
missing value, or failing attached format validator. -/
def failCond (d : Dom) (f : Field) : Bool :=
  (getValue d f.id == "") ||
    (match f.validator with | some vf => !(vf (getValue d f.id)) | none => false)

/-- `validatePage1` (src/script.js 160-190). -/
def validatePage1 (d : Dom) : Dom × Option String :=
  let r := page1Fields.foldl checkField (d, true)
  if r.2 then (r.1, some "page2.html") else (r.1, none)

/-- `validatePage2` (src/script.js 201-213). -/
def validatePage2 (d : Dom) : Dom × Option String :=
  let d1 := clearError d ("err-degree")
  if getValue d1 ("degree") = "" then
    (showError d1 ("err-degree") ("Please choose your highest degree."), none)
  else (d1, some "page3.html")

/-- The `requiredLicenseFields` table of validateLicenseDetails
(src/script.js 255-260). -/
def requiredLicenseFields : List (String × String) :=
  [("licenseNumber", "License number is required."),
   ("licenseIssue", "Issue date is required."),
   ("licenseExpiry", "Expiry date is required."),
   ("licenseState", "Issuing state is required.")]

/-- `validateLicenseDetails` (src/script.js 253-294): clear the four license
error slots, check presence of the four fields, then the cross-field rule
that the expiry date must not precede the issue date (JS `<` on strings is
lexicographic, as is Lean's `<` on `String`). -/
def validateLicenseDetails (d : Dom) : Dom × Bool :=
  let d0 := requiredLicenseFields.foldl (fun acc e => clearError acc ("err-" ++ e.1)) d
  let licenseNumber := getValue d0 ("licenseNumber")
  let issueDate := getValue d0 ("licenseIssue")
  let expiryDate := getValue d0 ("licenseExpiry")
  let licenseState := getValue d0 ("licenseState")
  let r1 := if licenseNumber = "" then
      (showError d0 ("err-licenseNumber") ("License number is required."), false)
    else (d0, true)
  let r2 := if issueDate = "" then
      (showError r1.1 ("err-licenseIssue") ("Issue date is required."), false)
    else r1
  let r3 := if expiryDate = "" then
      (showError r2.1 ("err-licenseExpiry") ("Expiry date is required."), false)
    else r2
  let r4 := if licenseState = "" then
      (showError r3.1 ("err-licenseState") ("Issuing state is required."), false)
    else r3
  if !(issueDate == "") && !(expiryDate == "") && strLt expiryDate.data issueDate.data then
    (showError r4.1 ("err-licenseExpiry") ("Expiry date must be after issue date."), false)
  else r4

/-- An experience entry as returned by the external `getExperiences`
collaborator; absent answers are empty strings (falsy). -/
structure Experience where
  employer : String
  jobTitle : String
  startDate : String
  endDate : String
  duties : String
deriving DecidableEq

/-- `exp.employer || exp.jobTitle || exp.startDate || exp.endDate ||
exp.duties` (src/script.js 315). -/
def hasAnyField (e : Experience) : Bool :=
  !(e.employer == "") || !(e.jobTitle == "") || !(e.startDate == "") ||
    !(e.endDate == "") || !(e.duties == "")

/-- The entry-completeness failure of src/script.js 318. -/
def employerFail (e : Experience) : Bool :=
  hasAnyField e && ((e.employer == "") || (e.jobTitle == ""))

/-- The date-order failure of src/script.js 326. -/
def dateFail (e : Experience) : Bool :=
  !(e.startDate == "") && !(e.endDate == "") && strLt e.endDate.data e.startDate.data

/-- Message of the completeness failure (src/script.js 319). -/
def expMsgEmployer : String := "Each work experience must include Employer and Job Title."

/-- Message of the date-order failure (src/script.js 327); the template
interpolates the 1-based entry number. -/
def expMsgDate (n : Nat) : String :=
  "Experience #" ++ Nat.repr n ++ ": End Date must be after Start Date."

/-- The for-loop of validateWorkExperience (src/script.js 313-332), with the
running 0-based index `i`; on either failure it writes the message into the
err-experience slot (text, unhide, alert role) and returns false
immediately. -/
def expLoop (d : Dom) : List Experience → Nat → Dom × Bool
  | [], _ => (d, true)
  | e :: rest, i =>
    if employerFail e then (showError d ("err-experience") expMsgEmployer, false)
    else if dateFail e then (showError d ("err-experience") (expMsgDate (i + 1)), false)
    else expLoop d rest (i + 1)

/-- The initial reset of the err-experience slot (src/script.js 303-304):
it empties the text and adds `hidden` but, unlike clearError, does not
remove the alert role. -/
def expClear (d : Dom) : Dom :=
  { d with slots := fun i =>
      if i = "err-experience" then (d.slots ("err-experience")).map (fun s => ⟨"", true, s.alert⟩)
      else d.slots i }

/-- `validateWorkExperience` (src/script.js 300-335).  The source reads
`expError.textContent` without a null guard, so when the err-experience
element is absent the function throws a TypeError — modelled as `none` —
and this happens before the `typeof getExperiences` guard.  The optional
external collaborator `getExperiences` is the `provider` argument; its
absence (`none`) makes the check pass. -/
def validateWorkExperience (d : Dom) (provider : Option (List Experience)) :
    Option (Dom × Bool) :=
  match d.slots ("err-experience") with
  | none => none
  | some _ =>
    let d1 := expClear d
    match provider with
    | none => some (d1, true)
    | some exps => some (expLoop d1 exps 0)

/-- `validatePage3` (src/script.js 224-247): require the license question;
when the answer is "yes" the valid flag is overwritten by the license-detail
result; then conjoin the work-experience result; navigate on success.  A
thrown TypeError from validateWorkExperience propagates (`none`). -/
def validatePage3 (d : Dom) (provider : Option (List Experience)) :
    Option (Dom × Option String) :=
  let d0 := clearError d ("err-license")
  let licenseReq := getValue d0 ("licenseReq")
  let r1 := if licenseReq = "" then
      (showError d0 ("err-license") ("Please answer the driver's license question."), false)
    else (d0, true)
  let r2 := if licenseReq = "yes" then validateLicenseDetails r1.1 else r1
  match validateWorkExperience r2.1 provider with
  | none => none
  | some (d3, expOk) =>
    if expOk && r2.2 then some (d3, some "page4.html") else some (d3, none)

/-- `validatePage4` (src/script.js 358-360): always advances. -/
def validatePage4 (d : Dom) : Dom × Option String := (d, some "page5.html")

-- ===========================================================================
-- Submission gate (src/script.js, submitApp, lines 371-415).
-- ===========================================================================

/-- The final page's success indicator and submit control; `none` marks an
absent element (the source guards both). -/
structure Page5 where
  successHidden : Option Bool
  submitDisabled : Option Bool
deriving DecidableEq

/-- What one submit-intent does: whether the default action was prevented,
the blocking alert raised (at most one, since the source returns right after
alerting), and the final page state. -/
structure SubmitOutcome where
  prevented : Bool
  alert : Option String
  page : Page5
deriving DecidableEq

/-- The `requiredFields` list of submitApp (src/script.js 377-389), in
source order. -/
def submitRequired : List String :=
  ["firstName", "lastName", "email", "phone", "address1", "city", "state", "zip",
   "position", "degree", "licenseReq"]

/-- Truthiness of `data[fieldName]`: absent is falsy, a string is truthy
when nonempty, a boolean is its own truth value. -/
def truthy (m : Snapshot) (k : String) : Bool :=
  match m.lookup k with
  | none => false
  | some (.s v) => !(v == "")
  | some (.b b) => b

/-- The alert text of src/script.js 394. -/
def missingFieldMsg (f : String) : String :=
  "Please complete all required fields before submitting.\n\nMissing or incomplete: " ++ f

/-- The alert text of src/script.js 401. -/
def agreeMsg : String := "You must agree to the application acknowledgement."

/-- `submitApp` (src/script.js 371-415): prevent the default action, reload
the snapshot, alert on the first falsy required field, then on a falsy
agree flag, and otherwise reveal the success indicator and disable the
submit control. -/
def submitApp (st : Store) (p : Page5) : SubmitOutcome :=
  let data := loadData st
  match submitRequired.find? (fun k => !(truthy data k)) with
  | some f => ⟨true, some (missingFieldMsg f), p⟩
  | none =>
    if !(truthy data ("agree")) then ⟨true, some agreeMsg, p⟩
    else ⟨true, none, ⟨p.successHidden.map (fun _ => false), p.submitDisabled.map (fun _ => true)⟩⟩

-- ===========================================================================
-- Spec-level summary predicates, used to state the page-3 navigation claim.
-- ===========================================================================

/-- Spec-level restatement of the license-detail checks: all four fields
present and the expiry date not lexically before the issue date.  Stated
from the spec's words; the lemma `validateLicenseDetails_flag` relates it to
the imperative code. -/
def licenseChecksPass (d : Dom) : Bool :=
  !(getValue d ("licenseNumber") == "") && !(getValue d ("licenseIssue") == "") &&
    !(getValue d ("licenseExpiry") == "") && !(getValue d ("licenseState") == "") &&
    !(!(getValue d ("licenseIssue") == "") && !(getValue d ("licenseExpiry") == "") &&
      strLt (getValue d ("licenseExpiry")).data (getValue d ("licenseIssue")).data)

/-- A single experience entry passes both checks. -/
def entryOk (e : Experience) : Bool := !(employerFail e) && !(dateFail e)

/-- The work-experience check passes: no provider, or every entry passes. -/
def expPass : Option (List Experience) → Bool
  | none => true
  | some l => l.all entryOk

-- ===========================================================================
-- Concrete pages and snapshots used by the witnesses and counterexamples.
-- ===========================================================================

/-- A page whose controls are plain text inputs from the given table and on
which every error slot exists (empty and hidden). -/
def mkDom (ctrls : List (String × String)) : Dom :=
  { controls := fun id => (ctrls.lookup id).map (fun v => ⟨false, v, false⟩),
    slots := fun _ => some ⟨"", true, false⟩ }

/-- A page with no elements at all. -/
def domEmpty : Dom := { controls := fun _ => none, slots := fun _ => none }

/-- Page 1 with a malformed email and every other field valid. -/
def dom2w : Dom := mkDom
  [("firstName", "Jane"), ("lastName", "Doe"), ("email", "not-an-email"),
   ("phone", "555-123-4567"), ("address1", "1 Main St"), ("city", "Springfield"),
   ("state", "Ohio"), ("zip", "12345"), ("position", "Nurse")]

/-- Page 3 in scenario C: license required, expiry before issue. -/
def dom9w : Dom := mkDom
  [("licenseReq", "yes"), ("licenseNumber", "D123"),
   ("licenseIssue", "2024-05-01"), ("licenseExpiry", "2024-01-01"), ("licenseState", "Ohio")]

/-- Page 3 with the license question answered "no". -/
def dom10w : Dom := mkDom [("licenseReq", "no")]

/-- An experience entry with only duties filled. -/
def expDutiesOnly : Experience := ⟨"", "", "", "", "Cleaning"⟩

/-- An experience entry whose end date precedes its start date. -/
def expBadDates : Experience := ⟨"Acme", "Dev", "2024-05-01", "2024-01-01", ""⟩

/-- Scenario D snapshot: every required field but `position`, and agree. -/
def snapD : Snapshot :=
  [("firstName", .s "Jo"), ("lastName", .s "Well"), ("email", .s "jo@well.org"),
   ("phone", .s "555-123-4567"), ("address1", .s "1 Main St"), ("city", .s "Springfield"),
   ("state", .s "Ohio"), ("zip", .s "12345"), ("degree", .s "BSN"),
   ("licenseReq", .s "no"), ("agree", .b true)]

/-- Scenario D store: snapD saved under the fixed key. -/
def stD : Store := saveData (some snapD) true none

/-- A fresh final page: success hidden, submit enabled. -/
def page5Init : Page5 := ⟨some true, some false⟩

/-- A small snapshot exercising the storage round trip. -/
def m0 : Snapshot := [("firstName", .s "Ada Lovelace"), ("agree", .b true)]

-- ===========================================================================
-- Generic list lemmas.
-- ===========================================================================

theorem getD_append_cons_self {α : Type} (a : List α) (x : α) (t : List α) (d : α) :
    (a ++ x :: t).getD a.length d = x := by
  rw [List.getD_append_right a (x :: t) d a.length (Nat.le_refl _)]
  simp

theorem drop_append_cons {α : Type} (a : List α) (x : α) (t : List α) :
    (a ++ x :: t).drop (a.length + 1) = t := by
  have h2 : a ++ x :: t = (a ++ [x]) ++ t := by simp
  have h3 : a.length + 1 = (a ++ [x]).length := by simp
  rw [h2, h3, List.drop_left]

/-- Splitting a list at the first occurrence of a marker is unique. -/
theorem append_cons_inj {α : Type} {w : α} {x u y v : List α}
    (h : x ++ w :: u = y ++ w :: v) (hx : w ∉ x) (hy : w ∉ y) : x = y ∧ u = v := by
  have hlen : x.length = y.length := by
    by_contra hne
    rcases Nat.lt_or_ge x.length y.length with hlt | hge
    · have h1 : (x ++ w :: u).getD x.length w = w := getD_append_cons_self x w u w
      rw [h, List.getD_append y (w :: v) w x.length hlt] at h1
      have h3 : y.getD x.length w ∈ y := by
        rw [List.getD_eq_getElem y w hlt]
        exact List.getElem_mem hlt
      rw [h1] at h3
      exact hy h3
    · have hlt : y.length < x.length := by omega
      have h1 : (y ++ w :: v).getD y.length w = w := getD_append_cons_self y w v w
      rw [← h, List.getD_append x (w :: u) w y.length hlt] at h1
      have h3 : x.getD y.length w ∈ x := by
        rw [List.getD_eq_getElem x w hlt]
        exact List.getElem_mem hlt
      rw [h1] at h3
      exact hx h3
  obtain ⟨h1, h2⟩ := List.append_inj h hlen
  refine ⟨h1, ?_⟩
  injection h2

theorem containsSub_append (pat a b : List Char) :
    containsSub pat (a ++ (pat ++ b)) = true := by
  unfold containsSub
  rw [List.any_eq_true]
  refine ⟨a.length, List.mem_range.mpr (by simp [Nat.lt_succ_iff]), ?_⟩
  rw [List.drop_left a (pat ++ b), List.take_left pat b]
  exact beq_self_eq_true pat

/-- `find?` returns the first element satisfying the predicate. -/
theorem find?_eq_get_of_first {α : Type} (p : α → Bool) (l : List α) :
    ∀ (i : Nat) (hi : i < l.length),
      p (l.get ⟨i, hi⟩) = true →
      (∀ j (hj : j < i), p (l.get ⟨j, Nat.lt_trans hj hi⟩) = false) →
      l.find? p = some (l.get ⟨i, hi⟩) := by
  induction l with
  | nil => intro i hi; exact absurd hi (by simp)
  | cons a l ih =>
    intro i hi hp hfirst
    cases i with
    | zero => exact List.find?_cons_of_pos l hp
    | succ i =>
      have ha : p a = false := hfirst 0 (Nat.succ_pos _)
      rw [List.find?_cons_of_neg l (by simp [ha])]
      exact ih i (Nat.lt_of_succ_lt_succ hi) hp
        (fun j hj => hfirst (j + 1) (Nat.succ_lt_succ hj))

-- ===========================================================================
-- Characterization of the email regex denotation.
-- ===========================================================================

theorem emailDomain_iff (l : List Char) :
    emailDomain l = true ↔
      ∃ b c, l = b ++ '.' :: c ∧ b ≠ [] ∧ 2 ≤ c.length ∧
        b.all emailChar = true ∧ c.all emailChar = true := by
  constructor
  · intro h
    rw [emailDomain, List.any_eq_true] at h
    obtain ⟨j, hj, hcond⟩ := h
    rw [List.mem_range] at hj
    simp only [Bool.and_eq_true, beq_iff_eq, decide_eq_true_eq, emailTld] at hcond
    obtain ⟨⟨⟨hdot, hpos⟩, htake⟩, hlen, htld⟩ := hcond
    refine ⟨l.take j, l.drop (j + 1), ?_, ?_, hlen, htake, htld⟩
    · conv_lhs => rw [← List.take_append_drop j l]
      rw [List.drop_eq_getElem_cons hj]
      rw [List.getD_eq_getElem l ' ' hj] at hdot
      rw [hdot]
    · intro hnil
      have hl : (l.take j).length = 0 := by rw [hnil]; rfl
      rw [List.length_take] at hl
      omega
  · rintro ⟨b, c, rfl, hb, hc, hab, hac⟩
    rw [emailDomain, List.any_eq_true]
    refine ⟨b.length, List.mem_range.mpr (by simp), ?_⟩
    simp only [Bool.and_eq_true, beq_iff_eq, decide_eq_true_eq, emailTld]
    refine ⟨⟨⟨getD_append_cons_self b '.' c ' ', List.length_pos.mpr hb⟩, ?_⟩, ?_, ?_⟩
    · rw [List.take_left b ('.' :: c)]; exact hab
    · rw [drop_append_cons b '.' c]; exact hc
    · rw [drop_append_cons b '.' c]; exact hac

-- ===========================================================================
-- Round-trip of the storage codec.
-- ===========================================================================

theorem parseHex_hexDigitChar (n : Nat) (h : n < 16) : parseHex (hexDigitChar n) = some n := by
  interval_cases n <;> decide

theorem psb_unicode (fuel : Nat) (h1 h2 h3 h4 : Char) (rest : List Char) :
    parseStringBody (fuel + 1) ('\\' :: 'u' :: h1 :: h2 :: h3 :: h4 :: rest) =
      match parseHex h1, parseHex h2, parseHex h3, parseHex h4 with
      | some n1, some n2, some n3, some n4 =>
        (match parseStringBody fuel rest with
         | some (s, r) => some (Char.ofNat (((n1 * 16 + n2) * 16 + n3) * 16 + n4) :: s, r)
         | none => none)
      | _, _, _, _ => none := rfl

/-- One decoding step of the string parser over one escaped character. -/
theorem psb_step (c : Char) (l : List Char) (fuel : Nat) :
    parseStringBody (fuel + 1) (escapeChar c ++ l) =
      match parseStringBody fuel l with
      | some (s, r) => some (c :: s, r)
      | none => none := by
  by_cases h1 : c = '"'
  · subst h1; rfl
  by_cases h2 : c = '\\'
  · subst h2; rfl
  by_cases h3 : c = Char.ofNat 8
  · subst h3; rfl
  by_cases h4 : c = Char.ofNat 9
  · subst h4; rfl
  by_cases h5 : c = Char.ofNat 10
  · subst h5; rfl
  by_cases h6 : c = Char.ofNat 12
  · subst h6; rfl
  by_cases h7 : c = Char.ofNat 13
  · subst h7; rfl
  by_cases h8 : c.toNat < 32
  · have hesc : escapeChar c =
        ['\\', 'u', '0', '0', hexDigitChar (c.toNat / 16), hexDigitChar (c.toNat % 16)] := by
      simp [escapeChar, h1, h2, h3, h4, h5, h6, h7, h8]
    rw [hesc]
    show parseStringBody (fuel + 1)
        ('\\' :: 'u' :: '0' :: '0' :: hexDigitChar (c.toNat / 16) ::
          hexDigitChar (c.toNat % 16) :: l) = _
    rw [psb_unicode]
    rw [parseHex_hexDigitChar (c.toNat / 16) (by omega), parseHex_hexDigitChar (c.toNat % 16) (by omega)]
    have harith : (((0 : Nat) * 16 + 0) * 16 + c.toNat / 16) * 16 + c.toNat % 16 = c.toNat := by
      omega
    show (match parseStringBody fuel l with
      | some (s, r) =>
        some (Char.ofNat ((((0 : Nat) * 16 + 0) * 16 + c.toNat / 16) * 16 + c.toNat % 16) :: s, r)
      | none => none) = _
    rw [harith, Char.ofNat_toNat]
  · have hesc : escapeChar c = [c] := by
      simp [escapeChar, h1, h2, h3, h4, h5, h6, h7, h8]
    rw [hesc]
    show parseStringBody (fuel + 1) (c :: l) = _
    simp only [parseStringBody]
    rw [if_neg h1, if_neg h2, if_neg h8]

/-- The string parser inverts the serializer's escaping. -/
theorem psb_roundtrip (s : List Char) : ∀ (fuel : Nat) (r : List Char), s.length < fuel →
    parseStringBody fuel (s.flatMap escapeChar ++ '"' :: r) = some (s, r) := by
  induction s with
  | nil =>
    intro fuel r h
    cases fuel with
    | zero => omega
    | succ fuel => rfl
  | cons c s ih =>
    intro fuel r h
    cases fuel with
    | zero => omega
    | succ fuel =>
      have harr : (c :: s).flatMap escapeChar ++ '"' :: r =
          escapeChar c ++ (s.flatMap escapeChar ++ '"' :: r) := by
        simp
      rw [harr, psb_step, ih fuel r (by simp at h; omega)]

theorem length_le_flatMap_escape (s : List Char) : s.length ≤ (s.flatMap escapeChar).length := by
  induction s with
  | nil => simp
  | cons c s ih =>
    have h1 : 1 ≤ (escapeChar c).length := by
      unfold escapeChar; split_ifs <;> simp
    simp only [List.flatMap_cons, List.length_append, List.length_cons]
    omega

/-- The value parser inverts the value serializer. -/
theorem parseVal_roundtrip (v : JVal) (l : List Char) :
    parseVal (serializeVal v ++ l) = some (v, l) := by
  cases v with
  | b bv => cases bv <;> rfl
  | s str =>
    have harr : serializeVal (.s str) ++ l =
        '"' :: (str.data.flatMap escapeChar ++ '"' :: l) := by
      simp [serializeVal]
    rw [harr]
    simp only [parseVal, if_pos rfl]
    rw [psb_roundtrip str.data _ l (by
      have := length_le_flatMap_escape str.data
      simp only [List.length_append, List.length_cons]
      omega)]
    rfl

/-- One member plus its trailing delimiter, as seen by the member parser. -/
theorem parseEntries_step (fuel : Nat) (k : String) (v : JVal) (tail : List Char) :
    parseEntries (fuel + 1) (serializeEntry (k, v) ++ tail) =
      (match tail with
       | [] => none
       | d2 :: r4 =>
         if d2 = ',' then
           match parseEntries fuel r4 with
           | some (ms, r5) => some ((k, v) :: ms, r5)
           | none => none
         else if d2 = cbrace then some ([(k, v)], r4)
         else none) := by
  have harr : serializeEntry (k, v) ++ tail =
      '"' :: (k.data.flatMap escapeChar ++ '"' :: ':' :: (serializeVal v ++ tail)) := by
    simp [serializeEntry]
  rw [harr]
  simp only [parseEntries, if_pos rfl]
  rw [psb_roundtrip k.data _ (':' :: (serializeVal v ++ tail)) (by
    have := length_le_flatMap_escape k.data
    simp only [List.length_append, List.length_cons]
    omega)]
  simp only [if_pos rfl]
  rw [parseVal_roundtrip]
  rfl

/-- The member parser inverts the member serializer. -/
theorem parseEntries_roundtrip (m : Snapshot) : ∀ (fuel : Nat) (r : List Char), m ≠ [] →
    m.length ≤ fuel →
    parseEntries fuel (serializeEntries m ++ cbrace :: r) = some (m, r) := by
  induction m with
  | nil => intro fuel r hne _; exact absurd rfl hne
  | cons e m ih =>
    intro fuel r _ hlen
    cases fuel with
    | zero => simp at hlen
    | succ fuel =>
      obtain ⟨k, v⟩ := e
      cases m with
      | nil =>
        rw [show serializeEntries [(k, v)] = serializeEntry (k, v) from rfl, parseEntries_step]
        have hne : ¬cbrace = ',' := by decide
        simp [hne]
      | cons e2 m2 =>
        have harr : serializeEntries ((k, v) :: e2 :: m2) ++ cbrace :: r =
            serializeEntry (k, v) ++ (',' :: (serializeEntries (e2 :: m2) ++ cbrace :: r)) := by
          simp [serializeEntries]
        rw [harr, parseEntries_step]
        have hih := ih fuel r (by simp) (by simp only [List.length_cons] at hlen ⊢; omega)
        simp [hih]

theorem length_le_serializeEntries (m : Snapshot) : m.length ≤ (serializeEntries m).length := by
  induction m with
  | nil => simp [serializeEntries]
  | cons e m ih =>
    have he : 4 ≤ (serializeEntry e).length := by
      obtain ⟨k, v⟩ := e
      simp only [serializeEntry, List.length_cons, List.length_append]
      cases v with
      | s str => simp [serializeVal]; omega
      | b bv => cases bv <;> simp [serializeVal]
    cases m with
    | nil => simp [serializeEntries]; omega
    | cons e2 m2 =>
      rw [show serializeEntries (e :: e2 :: m2) =
        serializeEntry e ++ ',' :: serializeEntries (e2 :: m2) from rfl]
      simp only [List.length_append, List.length_cons]
      simp only [List.length_cons] at ih
      omega

theorem serializeEntries_head (e : String × JVal) (m : Snapshot) :
    ∃ t, serializeEntries (e :: m) = '"' :: t := by
  obtain ⟨k, v⟩ := e
  cases m with
  | nil =>
    refine ⟨k.data.flatMap escapeChar ++ '"' :: ':' :: serializeVal v, ?_⟩
    simp [serializeEntries, serializeEntry]
  | cons f fs =>
    refine ⟨k.data.flatMap escapeChar ++
      ('"' :: ':' :: serializeVal v ++ ',' :: serializeEntries (f :: fs)), ?_⟩
    simp [serializeEntries, serializeEntry]

theorem parseObj_cons_quote (t : List Char) :
    parseObj (obrace :: '"' :: t) =
      (match parseEntries ('"' :: t).length ('"' :: t) with
       | some (m, r) => if r = [] then some m else none
       | none => none) := rfl

/-- The object parser inverts the object serializer. -/
theorem parseObj_stringify (m : Snapshot) : parseObj (stringifyObj m) = some m := by
  cases m with
  | nil => rfl
  | cons e m2 =>
    obtain ⟨t, ht⟩ := serializeEntries_head e m2
    have h1 : stringifyObj (e :: m2) = obrace :: '"' :: (t ++ [cbrace]) := by
      rw [stringifyObj, ht]
      simp
    rw [h1, parseObj_cons_quote]
    have h2 : '"' :: (t ++ [cbrace]) = serializeEntries (e :: m2) ++ cbrace :: ([] : List Char) := by
      rw [ht]
      simp
    rw [h2]
    have hlen : (e :: m2).length ≤ (serializeEntries (e :: m2) ++ cbrace :: ([] : List Char)).length := by
      have hl := length_le_serializeEntries (e :: m2)
      simp only [List.length_cons] at hl
      simp only [List.length_append, List.length_cons]
      omega
    rw [parseEntries_roundtrip (e :: m2) _ [] (by simp) hlen]
    rfl

theorem emailValid_iff (s : List Char) :
    emailValid s = true ↔
      ∃ a b c, s = a ++ '@' :: (b ++ '.' :: c) ∧ a ≠ [] ∧ b ≠ [] ∧ 2 ≤ c.length ∧
        a.all emailChar = true ∧ b.all emailChar = true ∧ c.all emailChar = true := by
  constructor
  · intro h
    rw [emailValid, List.any_eq_true] at h
    obtain ⟨i, hi, hcond⟩ := h
    rw [List.mem_range] at hi
    simp only [Bool.and_eq_true, beq_iff_eq, decide_eq_true_eq] at hcond
    obtain ⟨⟨⟨hat, hpos⟩, htake⟩, hdom⟩ := hcond
    obtain ⟨b, c, hsplit, hb, hc, hab, hac⟩ := (emailDomain_iff _).mp hdom
    refine ⟨s.take i, b, c, ?_, ?_, hb, hc, htake, hab, hac⟩
    · conv_lhs => rw [← List.take_append_drop i s]
      rw [List.drop_eq_getElem_cons hi]
      rw [List.getD_eq_getElem s ' ' hi] at hat
      rw [hat, ← hsplit]
    · intro hnil
      have hl : (s.take i).length = 0 := by rw [hnil]; rfl
      rw [List.length_take] at hl
      omega
  · rintro ⟨a, b, c, rfl, ha, hb, hc, haa, hab, hac⟩
    rw [emailValid, List.any_eq_true]
    refine ⟨a.length, List.mem_range.mpr (by simp), ?_⟩
    simp only [Bool.and_eq_true, beq_iff_eq, decide_eq_true_eq]
    refine ⟨⟨⟨getD_append_cons_self a '@' _ ' ', List.length_pos.mpr ha⟩, ?_⟩, ?_⟩
    · rw [List.take_left a ('@' :: (b ++ '.' :: c))]; exact haa
    · rw [drop_append_cons a '@' (b ++ '.' :: c)]
      exact (emailDomain_iff _).mpr ⟨b, c, rfl, hb, hc, hab, hac⟩

-- ===========================================================================
-- DOM bookkeeping lemmas.
-- ===========================================================================

theorem string_append_left_cancel {p a b : String} (h : p ++ a = p ++ b) : a = b := by
  have hd : (p ++ a).data = (p ++ b).data := congrArg String.data h
  rw [String.data_append, String.data_append] at hd
  have hdc := List.append_cancel_left hd
  calc a = String.mk a.data := rfl
    _ = String.mk b.data := by rw [hdc]
    _ = b := rfl

@[simp] theorem showError_controls (d : Dom) (id msg : String) :
    (showError d id msg).controls = d.controls := rfl

@[simp] theorem clearError_controls (d : Dom) (id : String) :
    (clearError d id).controls = d.controls := rfl

@[simp] theorem expClear_controls (d : Dom) :
    (expClear d).controls = d.controls := rfl

theorem getValue_congr {d1 d2 : Dom} (h : d1.controls = d2.controls) (id : String) :
    getValue d1 id = getValue d2 id := by
  unfold getValue
  rw [h]

@[simp] theorem getValue_showError (d : Dom) (i msg id : String) :
    getValue (showError d i msg) id = getValue d id := rfl

@[simp] theorem getValue_clearError (d : Dom) (i id : String) :
    getValue (clearError d i) id = getValue d id := rfl

theorem showError_slots_other (d : Dom) (id msg j : String) (h : j ≠ id) :
    (showError d id msg).slots j = d.slots j := by
  simp [showError, h]

theorem showError_slots_self (d : Dom) (id msg : String) :
    (showError d id msg).slots id = (d.slots id).map (fun _ => ⟨msg, false, true⟩) := by
  simp [showError]

theorem clearError_slots_other (d : Dom) (id j : String) (h : j ≠ id) :
    (clearError d id).slots j = d.slots j := by
  simp [clearError, h]

theorem clearError_slots_self (d : Dom) (id : String) :
    (clearError d id).slots id = (d.slots id).map (fun _ => ⟨"", true, false⟩) := by
  simp [clearError]

theorem showError_slots_isSome (d : Dom) (id msg j : String) :
    ((showError d id msg).slots j).isSome = (d.slots j).isSome := by
  by_cases h : j = id
  · subst h; rw [showError_slots_self]; simp
  · rw [showError_slots_other d id msg j h]

theorem clearError_slots_isSome (d : Dom) (id j : String) :
    ((clearError d id).slots j).isSome = (d.slots j).isSome := by
  by_cases h : j = id
  · subst h; rw [clearError_slots_self]; simp
  · rw [clearError_slots_other d id j h]

-- ===========================================================================
-- validatePage1: the forEach processes every field, each writing only its
-- own error slot.
-- ===========================================================================

theorem checkField_eq (a : Dom × Bool) (f : Field) :
    checkField a f =
      (if failCond a.1 f
       then (showError (clearError a.1 ("err-" ++ f.id)) ("err-" ++ f.id) f.msg, false)
       else (clearError a.1 ("err-" ++ f.id), a.2)) := rfl

theorem checkField_controls (a : Dom × Bool) (f : Field) :
    (checkField a f).1.controls = a.1.controls := by
  rw [checkField_eq]
  split <;> rfl

theorem failCond_congr {d1 d2 : Dom} (h : d1.controls = d2.controls) (f : Field) :
    failCond d1 f = failCond d2 f := by
  unfold failCond
  rw [getValue_congr h]

theorem foldl_checkField_untouched (fs : List Field) :
    ∀ (a : Dom × Bool) (j : String), (∀ f ∈ fs, j ≠ "err-" ++ f.id) →
      ((fs.foldl checkField a).1).slots j = (a.1).slots j := by
  induction fs with
  | nil => intro a j _; rfl
  | cons g gs ih =>
    intro a j h
    rw [List.foldl_cons, ih (checkField a g) j (fun f hf => h f (List.mem_cons_of_mem g hf))]
    have hj : j ≠ "err-" ++ g.id := h g (List.mem_cons_self g gs)
    rw [checkField_eq]
    split
    · rw [showError_slots_other _ _ _ _ hj, clearError_slots_other _ _ _ hj]
    · rw [clearError_slots_other _ _ _ hj]

theorem foldl_checkField_controls (fs : List Field) :
    ∀ (a : Dom × Bool), ((fs.foldl checkField a).1).controls = (a.1).controls := by
  induction fs with
  | nil => intro a; rfl
  | cons g gs ih =>
    intro a
    rw [List.foldl_cons, ih (checkField a g), checkField_controls]

theorem foldl_checkField_slot (fs : List Field) :
    ∀ (a : Dom × Bool) (f : Field), f ∈ fs → (fs.map Field.id).Nodup →
      ((fs.foldl checkField a).1).slots ("err-" ++ f.id) =
        ((a.1).slots ("err-" ++ f.id)).map
          (fun _ => if failCond a.1 f then (⟨f.msg, false, true⟩ : Slot) else ⟨"", true, false⟩) := by
  induction fs with
  | nil => intro a f hf _; exact absurd hf (by simp)
  | cons g gs ih =>
    intro a f hf hnd
    have hnd2 : (gs.map Field.id).Nodup := (List.nodup_cons.mp (by simpa using hnd)).2
    have hgid : g.id ∉ gs.map Field.id := (List.nodup_cons.mp (by simpa using hnd)).1
    rw [List.foldl_cons]
    rcases List.mem_cons.mp hf with rfl | hf2
    · have hng : ∀ f2 ∈ gs, ("err-" ++ f.id) ≠ ("err-" ++ f2.id) := by
        intro f2 hf2 heq
        exact hgid (string_append_left_cancel heq ▸ List.mem_map_of_mem Field.id hf2)
      rw [foldl_checkField_untouched gs (checkField a f) _ hng]
      rw [checkField_eq]
      split
      · rw [showError_slots_self, clearError_slots_self, Option.map_map]
        rfl
      · rw [clearError_slots_self]
    · have hfg : f.id ≠ g.id := by
        intro heq
        exact hgid (heq ▸ List.mem_map_of_mem Field.id hf2)
      rw [ih (checkField a g) f hf2 hnd2]
      have hslots : (checkField a g).1.slots ("err-" ++ f.id) = (a.1).slots ("err-" ++ f.id) := by
        have hj : ("err-" ++ f.id) ≠ ("err-" ++ g.id) := fun heq => hfg (string_append_left_cancel heq)
        rw [checkField_eq]
        split
        · rw [showError_slots_other _ _ _ _ hj, clearError_slots_other _ _ _ hj]
        · rw [clearError_slots_other _ _ _ hj]
      rw [hslots, failCond_congr (checkField_controls a g) f]

theorem foldl_checkField_flag (fs : List Field) :
    ∀ (a : Dom × Bool), (fs.foldl checkField a).2 = (a.2 && fs.all (fun f => !(failCond a.1 f))) := by
  induction fs with
  | nil => intro a; simp
  | cons g gs ih =>
    intro a
    rw [List.foldl_cons, ih (checkField a g)]
    have hall : (fun f => !(failCond (checkField a g).1 f)) = (fun f => !(failCond a.1 f)) :=
      funext fun f => by rw [failCond_congr (checkField_controls a g) f]
    rw [hall, checkField_eq]
    split
    · rename_i hfail
      simp [hfail]
    · rename_i hfail
      simp only [Bool.not_eq_true] at hfail
      simp [hfail, Bool.and_assoc]

theorem validatePage1_fst (d : Dom) :
    (validatePage1 d).1 = (page1Fields.foldl checkField (d, true)).1 := by
  cases h : (page1Fields.foldl checkField (d, true)).2 with
  | false => simp only [validatePage1, h, Bool.false_eq_true, if_false]
  | true => simp only [validatePage1, h, if_true]

-- ===========================================================================
-- validateLicenseDetails bookkeeping.
-- ===========================================================================

theorem getValue_licenseClear (d : Dom) (id : String) :
    getValue (requiredLicenseFields.foldl (fun acc e => clearError acc ("err-" ++ e.1)) d) id =
      getValue d id := rfl

theorem validateLicenseDetails_controls (d : Dom) :
    (validateLicenseDetails d).1.controls = d.controls := by
  simp only [validateLicenseDetails]
  repeat' split
  all_goals rfl

theorem validateLicenseDetails_slots_isSome (d : Dom) (j : String) :
    (((validateLicenseDetails d).1).slots j).isSome = (d.slots j).isSome := by
  simp only [validateLicenseDetails]
  repeat' split
  all_goals simp [requiredLicenseFields, showError_slots_isSome, clearError_slots_isSome]

theorem validateLicenseDetails_flag (d : Dom) :
    (validateLicenseDetails d).2 = licenseChecksPass d := by
  simp only [validateLicenseDetails, licenseChecksPass, getValue_licenseClear]
  by_cases h1 : getValue d ("licenseNumber") = "" <;>
    by_cases h2 : getValue d ("licenseIssue") = "" <;>
      by_cases h3 : getValue d ("licenseExpiry") = "" <;>
        by_cases h4 : getValue d ("licenseState") = "" <;>
          by_cases h5 : strLt (getValue d ("licenseExpiry")).data (getValue d ("licenseIssue")).data =
              true <;>
            simp [h1, h2, h3, h4, h5]

theorem licenseChecksPass_congr {d1 d2 : Dom} (h : d1.controls = d2.controls) :
    licenseChecksPass d1 = licenseChecksPass d2 := by
  unfold licenseChecksPass
  rw [getValue_congr h, getValue_congr h, getValue_congr h, getValue_congr h]

/-- Under scenario C's hypotheses the expiry slot ends up carrying the
cross-field message and the license check fails. -/
theorem validateLicenseDetails_expiry (d : Dom)
    (h2 : ¬getValue d ("licenseIssue") = "")
    (h3 : ¬getValue d ("licenseExpiry") = "")
    (h5 : strLt (getValue d ("licenseExpiry")).data (getValue d ("licenseIssue")).data = true) :
    ((validateLicenseDetails d).1).slots ("err-licenseExpiry") =
      (d.slots ("err-licenseExpiry")).map
        (fun _ => ⟨"Expiry date must be after issue date.", false, true⟩) := by
  simp only [validateLicenseDetails, getValue_licenseClear]
  rw [if_neg h2, if_neg h3, if_pos (by simp [h2, h3, h5])]
  rw [showError_slots_self]
  have hd0 : ((requiredLicenseFields.foldl (fun acc e => clearError acc ("err-" ++ e.1)) d).slots
      ("err-licenseExpiry")) = (d.slots ("err-licenseExpiry")).map (fun _ => ⟨"", true, false⟩) := by
    show ((clearError (clearError (clearError (clearError d ("err-licenseNumber"))
      ("err-licenseIssue")) ("err-licenseExpiry")) ("err-licenseState")).slots
        ("err-licenseExpiry")) = _
    rw [clearError_slots_other _ _ _ (by decide), clearError_slots_self,
      clearError_slots_other _ _ _ (by decide), clearError_slots_other _ _ _ (by decide)]
  by_cases h1 : getValue d ("licenseNumber") = "" <;>
    by_cases h4 : getValue d ("licenseState") = "" <;>
      simp only [h1, h4, if_pos, if_neg, if_true, if_false, ite_true, ite_false, not_false_iff,
        not_true] <;>
      simp [showError_slots_other _ _ _ _ (by decide : ("err-licenseExpiry" : String) ≠ "err-licenseState"),
        showError_slots_other _ _ _ _ (by decide : ("err-licenseExpiry" : String) ≠ "err-licenseNumber"),
        hd0, Option.map_map, Function.comp] <;>
      rfl

-- ===========================================================================
-- validateWorkExperience bookkeeping.
-- ===========================================================================

theorem expClear_slots_other (d : Dom) (j : String) (h : j ≠ "err-experience") :
    (expClear d).slots j = d.slots j := by
  simp [expClear, h]

theorem expClear_slots_isSome (d : Dom) (j : String) :
    ((expClear d).slots j).isSome = (d.slots j).isSome := by
  by_cases h : j = "err-experience"
  · subst h; simp [expClear]
  · rw [expClear_slots_other d j h]

theorem expLoop_flag (exps : List Experience) : ∀ (d : Dom) (i : Nat),
    (expLoop d exps i).2 = exps.all entryOk := by
  induction exps with
  | nil => intro d i; simp [expLoop]
  | cons e rest ih =>
    intro d i
    by_cases h1 : employerFail e = true
    · simp [expLoop, h1, entryOk]
    · by_cases h2 : dateFail e = true
      · simp [expLoop, h1, h2, entryOk]
      · simp [expLoop, h1, h2, entryOk, ih d (i + 1)]

theorem expLoop_controls (exps : List Experience) : ∀ (d : Dom) (i : Nat),
    ((expLoop d exps i).1).controls = d.controls := by
  induction exps with
  | nil => intro d i; rfl
  | cons e rest ih =>
    intro d i
    by_cases h1 : employerFail e = true
    · simp [expLoop, h1]
    · by_cases h2 : dateFail e = true
      · simp [expLoop, h1, h2]
      · simp [expLoop, h1, h2, ih d (i + 1)]

theorem expLoop_slots_other (exps : List Experience) : ∀ (d : Dom) (i : Nat) (j : String),
    j ≠ "err-experience" → ((expLoop d exps i).1).slots j = d.slots j := by
  induction exps with
  | nil => intro d i j _; rfl
  | cons e rest ih =>
    intro d i j hj
    by_cases h1 : employerFail e = true
    · simp [expLoop, h1, showError_slots_other _ _ _ _ hj]
    · by_cases h2 : dateFail e = true
      · simp [expLoop, h1, h2, showError_slots_other _ _ _ _ hj]
      · simp [expLoop, h1, h2, ih d (i + 1) j hj]

theorem expLoop_slots_isSome (exps : List Experience) : ∀ (d : Dom) (i : Nat) (j : String),
    (((expLoop d exps i).1).slots j).isSome = (d.slots j).isSome := by
  induction exps with
  | nil => intro d i j; rfl
  | cons e rest ih =>
    intro d i j
    by_cases h1 : employerFail e = true
    · simp [expLoop, h1, showError_slots_isSome]
    · by_cases h2 : dateFail e = true
      · simp [expLoop, h1, h2, showError_slots_isSome]
      · simp [expLoop, h1, h2, ih d (i + 1) j]

/-- When the err-experience slot exists, validateWorkExperience completes
normally, returns the conjunction of all entry checks, and touches no other
slot. -/
theorem validateWorkExperience_spec (d : Dom) (provider : Option (List Experience))
    (h : (d.slots ("err-experience")).isSome = true) :
    ∃ d2, validateWorkExperience d provider = some (d2, expPass provider) ∧
      d2.controls = d.controls ∧
      (∀ j, j ≠ "err-experience" → d2.slots j = d.slots j) ∧
      (∀ j, (d2.slots j).isSome = (d.slots j).isSome) := by
  obtain ⟨sl, hsl⟩ := Option.isSome_iff_exists.mp h
  unfold validateWorkExperience
  rw [hsl]
  cases provider with
  | none =>
    exact ⟨expClear d, rfl, rfl, fun j hj => expClear_slots_other d j hj,
      fun j => expClear_slots_isSome d j⟩
  | some exps =>
    refine ⟨(expLoop (expClear d) exps 0).1, ?_, ?_, ?_, ?_⟩
    · rw [show expPass (some exps) = exps.all entryOk from rfl, ← expLoop_flag exps (expClear d) 0]
    · rw [expLoop_controls]
      exact expClear_controls d
    · intro j hj
      rw [expLoop_slots_other exps _ 0 j hj, expClear_slots_other d j hj]
    · intro j
      rw [expLoop_slots_isSome exps _ 0 j, expClear_slots_isSome d j]

-- ===========================================================================
-- Claim theorems.
-- ===========================================================================

/-- C7: zipValid accepts exactly the strings of five decimal digits, or of
five digits, a hyphen, and four more digits; in particular "1234" and
"123456" are rejected. -/
theorem c7_zip_spec :
    (∀ s : List Char, zipValid s = true ↔
      (s.length = 5 ∧ s.all Char.isDigit = true) ∨
        ∃ a b, s = a ++ '-' :: b ∧ a.length = 5 ∧ b.length = 4 ∧
          a.all Char.isDigit = true ∧ b.all Char.isDigit = true) ∧
    zipValid ("1234".data) = false ∧ zipValid ("123456".data) = false := by
  refine ⟨fun s => ?_, by decide, by decide⟩
  constructor
  · intro h
    rw [zipValid, Bool.or_eq_true] at h
    rcases h with h | h
    · simp only [Bool.and_eq_true, beq_iff_eq] at h
      exact Or.inl ⟨h.1, h.2⟩
    · simp only [Bool.and_eq_true, beq_iff_eq] at h
      obtain ⟨⟨⟨hlen, htake⟩, hdash⟩, hdrop⟩ := h
      have h5 : 5 < s.length := by omega
      refine Or.inr ⟨s.take 5, s.drop 6, ?_, ?_, ?_, htake, hdrop⟩
      · conv_lhs => rw [← List.take_append_drop 5 s]
        rw [List.drop_eq_getElem_cons h5]
        rw [List.getD_eq_getElem s ' ' h5] at hdash
        rw [hdash]
      · rw [List.length_take]; omega
      · rw [List.length_drop]; omega
  · intro h
    rcases h with ⟨hlen, hdig⟩ | ⟨a, b, rfl, ha, hb, hda, hdb⟩
    · rw [zipValid, Bool.or_eq_true]
      exact Or.inl (by simp [hlen, hdig])
    · rw [zipValid, Bool.or_eq_true]
      refine Or.inr ?_
      simp only [Bool.and_eq_true, beq_iff_eq]
      refine ⟨⟨⟨?_, ?_⟩, ?_⟩, ?_⟩
      · simp [List.length_append, ha, hb]
      · rw [← ha, List.take_left a ('-' :: b)]; exact hda
      · rw [← ha]; exact getD_append_cons_self a '-' b ' '
      · have hdr : (a ++ '-' :: b).drop 6 = b := by
          rw [show (6 : Nat) = a.length + 1 from by omega]
          exact drop_append_cons a '-' b
        rw [hdr]; exact hdb

/-- C6 counterexample: "a@b.c.d" has a one-character suffix after its final
dot (its TLD in the claim's sense), yet emailValid accepts it, because the
regex's domain part `[^\s@]+` may swallow the earlier dot-separated
segments.  The claim's clause "for every string whose TLD has only 1
character, emailValid returns false" is therefore false as stated. -/
theorem c6_email_cex :
    emailValid ("a@b.c.d".data) = true ∧ (lastDotTail ("a@b.c.d".data)).length = 1 := by
  constructor
  · decide
  · decide

/-- C6 (amended): well-formed local@domain.tld inputs (tld length at least
2) are accepted; strings with no '@' are rejected; and the 1-character-TLD
rejection holds for domains that contain no internal dot (shape
local@domain.t with a single trailing character other than '.'). -/
theorem c6_email_amended :
    (∀ a b c : List Char, a ≠ [] → b ≠ [] → 2 ≤ c.length →
      a.all emailChar = true → b.all emailChar = true → c.all emailChar = true →
      emailValid (a ++ '@' :: (b ++ '.' :: c)) = true) ∧
    (∀ s : List Char, '@' ∉ s → emailValid s = false) ∧
    (∀ (a b : List Char) (t : Char), a ≠ [] → b ≠ [] →
      a.all emailChar = true → b.all emailChar = true → emailChar t = true →
      t ≠ '.' → '.' ∉ b →
      emailValid (a ++ '@' :: (b ++ '.' :: [t])) = false) := by
  refine ⟨?_, ?_, ?_⟩
  · intro a b c ha hb hc haa hab hac
    exact (emailValid_iff _).mpr ⟨a, b, c, rfl, ha, hb, hc, haa, hab, hac⟩
  · intro s hat
    by_contra h
    rw [Bool.not_eq_false] at h
    obtain ⟨a, b, c, rfl, -, -, -, -, -, -⟩ := (emailValid_iff s).mp h
    exact hat (by simp)
  · intro a b t ha hb haa hab hat htd hdb
    by_contra h
    rw [Bool.not_eq_false] at h
    obtain ⟨a2, b2, c2, heq, -, -, hc2, haa2, -, -⟩ := (emailValid_iff _).mp h
    have hnota : '@' ∉ a := fun hm => by
      have hc := List.all_eq_true.mp haa '@' hm
      simp [emailChar] at hc
    have hnota2 : '@' ∉ a2 := fun hm => by
      have hc := List.all_eq_true.mp haa2 '@' hm
      simp [emailChar] at hc
    obtain ⟨-, htail⟩ := append_cons_inj heq hnota hnota2
    have hlen := congrArg List.length htail
    simp only [List.length_append, List.length_cons, List.length_nil] at hlen
    have hblt : b2.length < b.length := by omega
    have hdot2 : (b2 ++ '.' :: c2).getD b2.length ' ' = '.' := getD_append_cons_self b2 '.' c2 ' '
    rw [← htail, List.getD_append b ('.' :: [t]) ' ' b2.length hblt] at hdot2
    have hmem : b.getD b2.length ' ' ∈ b := by
      rw [List.getD_eq_getElem b ' ' hblt]
      exact List.getElem_mem hblt
    rw [hdot2] at hmem
    exact hdb hmem

theorem c6_email_amended_witness :
    emailValid ("ab".data ++ '@' :: ("cd".data ++ '.' :: "ef".data)) = true ∧
    emailValid ("abcd".data) = false ∧
    emailValid ("a".data ++ '@' :: ("b".data ++ '.' :: ['c'])) = false := by
  refine ⟨?_, ?_, ?_⟩
  · exact c6_email_amended.1 ("ab".data) ("cd".data) ("ef".data) (by decide) (by decide)
      (by decide) (by decide) (by decide) (by decide)
  · exact c6_email_amended.2.1 ("abcd".data) (by decide)
  · exact c6_email_amended.2.2 ("a".data) ("b".data) 'c' (by decide) (by decide) (by decide)
      (by decide) (by decide) (by decide) (by decide)

/-- C5: the claim is right about every DOM helper except the one it singles
out: validateWorkExperience reads `expError.textContent` with no null guard
(src/script.js 302-303), before the getExperiences guard, so on a page
without the err-experience element it throws a TypeError (modelled `none`)
instead of no-opping — with or without the experience provider.  showError,
clearError and getValue do guard and no-op as claimed. -/
theorem c5_missing_slot_bug :
    validateWorkExperience domEmpty none = none ∧
    validateWorkExperience domEmpty (some []) = none ∧
    showError domEmpty ("err-x") ("boom") = domEmpty ∧
    clearError domEmpty ("err-x") = domEmpty ∧
    getValue domEmpty ("x") = "" := by
  refine ⟨rfl, rfl, ?_, ?_, rfl⟩
  · refine Dom.ext rfl (funext fun j => ?_)
    show (if j = "err-x" then (domEmpty.slots ("err-x")).map _ else domEmpty.slots j) =
      domEmpty.slots j
    split <;> rfl
  · refine Dom.ext rfl (funext fun j => ?_)
    show (if j = "err-x" then (domEmpty.slots ("err-x")).map _ else domEmpty.slots j) =
      domEmpty.slots j
    split <;> rfl

/-- C4 counterexample: an entry with only duties filled triggers the
missing-employer/job-title failure, whose displayed message is the fixed
string with no occurrence of the entry's 1-based position "#1"; so not
every reported entry failure includes the entry's position. -/
theorem c4_position_cex :
    (validateWorkExperience (mkDom []) (some [expDutiesOnly])).map
        (fun r => ((r.1).slots ("err-experience"), r.2)) =
      some (some ⟨expMsgEmployer, false, true⟩, false) ∧
    containsSub ("#1".data) (expMsgEmployer.data) = false := by
  constructor
  · decide
  · decide

/-- C4 (amended): only the end-date-before-start-date failure reports with
the entry's 1-based position; the missing-employer/job-title failure shows
a fixed message containing no position (no '#' at all). -/
theorem c4_position_amended :
    (∀ (d : Dom) (i : Nat) (e : Experience) (rest : List Experience),
      employerFail e = false → dateFail e = true →
      expLoop d (e :: rest) i = (showError d ("err-experience") (expMsgDate (i + 1)), false) ∧
      containsSub ('#' :: (Nat.repr (i + 1)).data) ((expMsgDate (i + 1)).data) = true) ∧
    (∀ (d : Dom) (i : Nat) (e : Experience) (rest : List Experience),
      employerFail e = true →
      expLoop d (e :: rest) i = (showError d ("err-experience") expMsgEmployer, false)) ∧
    containsSub ("#".data) (expMsgEmployer.data) = false := by
  refine ⟨?_, ?_, by decide⟩
  · intro d i e rest h1 h2
    constructor
    · simp [expLoop, h1, h2]
    · have harr : (expMsgDate (i + 1)).data =
          ("Experience " : String).data ++
            (('#' :: (Nat.repr (i + 1)).data) ++
              (": End Date must be after Start Date." : String).data) := by
        simp only [expMsgDate, String.data_append]
        simp
      rw [harr]
      exact containsSub_append _ _ _
  · intro d i e rest h1
    simp [expLoop, h1]

theorem c4_position_amended_witness :
    expLoop (mkDom []) [expBadDates] 0 =
      (showError (mkDom []) ("err-experience") (expMsgDate 1), false) ∧
    containsSub ("#1".data) ((expMsgDate 1).data) = true := by
  have h := c4_position_amended.1 (mkDom []) 0 expBadDates [] (by decide) (by decide)
  refine ⟨h.1, ?_⟩
  rw [show ("#1" : String).data = '#' :: (Nat.repr 1).data from by decide]
  exact h.2

/-- C3 counterexample: with two invalid entries (the first missing employer
and job title, the second with end date before start date) the single
err-experience slot carries only the first entry's message; the second
entry's applicable failure message (a distinct string) is reported nowhere,
because the loop returns at the first failure. -/
theorem c3_short_circuit_cex :
    (validateWorkExperience (mkDom []) (some [expDutiesOnly, expBadDates])).map
        (fun r => ((r.1).slots ("err-experience"), r.2)) =
      some (some ⟨expMsgEmployer, false, true⟩, false) ∧
    expMsgEmployer ≠ expMsgDate 2 ∧
    dateFail expBadDates = true := by
  refine ⟨by decide, by decide, by decide⟩

/-- C3 (amended): the page-1 validator really does evaluate every field and
show every applicable message (each failing field's slot carries its
message in the final state, however many fail); but validateWorkExperience
stops at the first invalid experience entry — its result does not depend on
the entries after the first failing one. -/
theorem c3_no_short_circuit_amended :
    (∀ (d : Dom) (f : Field), f ∈ page1Fields → failCond d f = true →
      ((validatePage1 d).1).slots ("err-" ++ f.id) =
        (d.slots ("err-" ++ f.id)).map (fun _ => ⟨f.msg, false, true⟩)) ∧
    (∀ (d : Dom) (e : Experience) (rest : List Experience), employerFail e = true →
      validateWorkExperience d (some (e :: rest)) = validateWorkExperience d (some [e])) := by
  constructor
  · intro d f hf hfail
    have hnd : (page1Fields.map Field.id).Nodup := by decide
    rw [validatePage1_fst, foldl_checkField_slot page1Fields (d, true) f hf hnd]
    have hfc : failCond (d, true).1 f = true := hfail
    rw [hfc]
    simp
  · intro d e rest h1
    unfold validateWorkExperience
    cases hsl : d.slots ("err-experience") with
    | none => rfl
    | some sl => simp [expLoop, h1]

theorem c3_no_short_circuit_amended_witness :
    ((validatePage1 dom2w).1).slots ("err-email") =
      some ⟨"Valid email is required.", false, true⟩ ∧
    validateWorkExperience dom2w (some [expDutiesOnly, expBadDates]) =
      validateWorkExperience dom2w (some [expDutiesOnly]) := by
  constructor
  · have hf : (⟨"email", "Valid email is required.", some emailValidS⟩ : Field) ∈ page1Fields := by
      unfold page1Fields
      exact List.mem_cons_of_mem _ (List.mem_cons_of_mem _ (List.mem_cons_self _ _))
    have h := c3_no_short_circuit_amended.1 dom2w
      ⟨"email", "Valid email is required.", some emailValidS⟩ hf (by decide)
    rw [show ("err-email" : String) = "err-" ++ "email" from rfl, h]
    rfl
  · exact c3_no_short_circuit_amended.2 dom2w expDutiesOnly [expBadDates] (by decide)

/-- C2: on page 1, when the email value fails the email validator and every
other required field is present and passes its attached format check, the
err-email slot shows exactly "Valid email is required.", every other
page-1 error slot is left empty and hidden, and no navigation to page2.html
happens. -/
theorem c2_page1_email_error (d : Dom)
    (hfn : ¬getValue d ("firstName") = "")
    (hln : ¬getValue d ("lastName") = "")
    (hem : emailValidS (getValue d ("email")) = false)
    (hph : ¬getValue d ("phone") = "") (hphv : phoneValidS (getValue d ("phone")) = true)
    (had : ¬getValue d ("address1") = "")
    (hci : ¬getValue d ("city") = "")
    (hst : ¬getValue d ("state") = "")
    (hzp : ¬getValue d ("zip") = "") (hzpv : zipValidS (getValue d ("zip")) = true)
    (hpo : ¬getValue d ("position") = "") :
    ((validatePage1 d).1).slots ("err-email") =
      (d.slots ("err-email")).map (fun _ => ⟨"Valid email is required.", false, true⟩) ∧
    (∀ f ∈ page1Fields, f.id ≠ "email" →
      ((validatePage1 d).1).slots ("err-" ++ f.id) =
        (d.slots ("err-" ++ f.id)).map (fun _ => (⟨"", true, false⟩ : Slot))) ∧
    (validatePage1 d).2 = none := by
  have hnd : (page1Fields.map Field.id).Nodup := by decide
  have hmail : failCond d ⟨"email", "Valid email is required.", some emailValidS⟩ = true := by
    simp [failCond, hem]
  refine ⟨?_, ?_, ?_⟩
  · have hf : (⟨"email", "Valid email is required.", some emailValidS⟩ : Field) ∈ page1Fields := by
      unfold page1Fields
      exact List.mem_cons_of_mem _ (List.mem_cons_of_mem _ (List.mem_cons_self _ _))
    rw [show ("err-email" : String) = "err-" ++ "email" from rfl, validatePage1_fst,
      foldl_checkField_slot page1Fields (d, true) _ hf hnd]
    rw [show failCond (d, true).1 ⟨"email", "Valid email is required.", some emailValidS⟩ =
      true from hmail]
    simp
  · intro f hf hne
    rw [validatePage1_fst, foldl_checkField_slot page1Fields (d, true) f hf hnd]
    have hok : failCond (d, true).1 f = false := by
      fin_cases hf <;>
        simp_all [failCond]
    rw [hok]
    simp
  · simp only [validatePage1]
    rw [foldl_checkField_flag page1Fields (d, true)]
    have hall : page1Fields.all (fun f => !(failCond (d, true).1 f)) = false := by
      have hf : (⟨"email", "Valid email is required.", some emailValidS⟩ : Field) ∈
          page1Fields := by
        unfold page1Fields
        exact List.mem_cons_of_mem _ (List.mem_cons_of_mem _ (List.mem_cons_self _ _))
      rw [Bool.eq_false_iff]
      intro hT
      have hx := List.all_eq_true.mp hT _ hf
      have hmail2 : failCond (d, true).1
          ⟨"email", "Valid email is required.", some emailValidS⟩ = true := hmail
      rw [hmail2] at hx
      simp at hx
    rw [hall]
    simp

theorem c2_page1_email_error_witness :
    ((validatePage1 dom2w).1).slots ("err-email") =
      some ⟨"Valid email is required.", false, true⟩ ∧
    ((validatePage1 dom2w).1).slots ("err-zip") = some ⟨"", true, false⟩ ∧
    (validatePage1 dom2w).2 = none := by
  have h := c2_page1_email_error dom2w (by decide) (by decide) (by decide) (by decide)
    (by decide) (by decide) (by decide) (by decide) (by decide) (by decide) (by decide)
  refine ⟨?_, ?_, h.2.2⟩
  · rw [h.1]
    rfl
  · have hf : (⟨"zip", "Valid 5-digit ZIP code is required.", some zipValidS⟩ : Field) ∈
        page1Fields := by
      unfold page1Fields
      exact List.mem_cons_of_mem _ (List.mem_cons_of_mem _ (List.mem_cons_of_mem _
        (List.mem_cons_of_mem _ (List.mem_cons_of_mem _ (List.mem_cons_of_mem _
          (List.mem_cons_of_mem _ (List.mem_cons_self _ _)))))))
    have h2 := h.2.1 ⟨"zip", "Valid 5-digit ZIP code is required.", some zipValidS⟩ hf (by decide)
    rw [show ("err-zip" : String) = "err-" ++ "zip" from rfl, h2]
    rfl

/-- C9: on page 3 with the license answer "yes", both dates present, and the
expiry date lexically earlier than the issue date, validatePage3 writes
"Expiry date must be after issue date." into the err-licenseExpiry slot and
does not navigate to page4.html. -/
theorem c9_expiry_cross_field (d : Dom) (provider : Option (List Experience))
    (hyes : getValue d ("licenseReq") = "yes")
    (h2 : ¬getValue d ("licenseIssue") = "")
    (h3 : ¬getValue d ("licenseExpiry") = "")
    (h5 : strLt (getValue d ("licenseExpiry")).data (getValue d ("licenseIssue")).data = true)
    (hexp : (d.slots ("err-experience")).isSome = true) :
    ∃ d2, validatePage3 d provider = some (d2, none) ∧
      d2.slots ("err-licenseExpiry") =
        (d.slots ("err-licenseExpiry")).map
          (fun _ => ⟨"Expiry date must be after issue date.", false, true⟩) := by
  simp only [validatePage3, getValue_clearError, hyes, ite_true]
  rw [if_neg (by decide : ¬("yes" : String) = "")]
  have hexp1 : (((validateLicenseDetails (clearError d ("err-license"))).1).slots
      ("err-experience")).isSome = true := by
    rw [validateLicenseDetails_slots_isSome, clearError_slots_isSome]
    exact hexp
  obtain ⟨d2, hv, hc, hother, hsome⟩ :=
    validateWorkExperience_spec ((validateLicenseDetails (clearError d ("err-license"))).1)
      provider hexp1
  rw [hv]
  have hflag : (validateLicenseDetails (clearError d ("err-license"))).2 = false := by
    rw [validateLicenseDetails_flag,
      licenseChecksPass_congr (clearError_controls d ("err-license"))]
    simp [licenseChecksPass, h2, h3, h5]
  rw [hflag]
  refine ⟨d2, by simp, ?_⟩
  rw [hother _ (by decide)]
  have hvld := validateLicenseDetails_expiry (clearError d ("err-license")) h2 h3 h5
  rw [hvld, clearError_slots_other d ("err-license") ("err-licenseExpiry") (by decide)]

theorem c9_expiry_cross_field_witness :
    ∃ d2, validatePage3 dom9w none = some (d2, none) ∧
      d2.slots ("err-licenseExpiry") =
        some ⟨"Expiry date must be after issue date.", false, true⟩ := by
  obtain ⟨d2, h1, h2⟩ := c9_expiry_cross_field dom9w none (by decide) (by decide) (by decide)
    (by decide) (by decide)
  exact ⟨d2, h1, by rw [h2]; rfl⟩

/-- C10: on a page-3 page that has the err-experience element, validatePage3
navigates to page4.html exactly when the license answer is nonempty, the
license-detail checks pass whenever the answer is "yes", and the
work-experience check passes.  The overwrite `isValid =
validateLicenseDetails()` only runs when the answer is "yes", which implies
the answer was nonempty, so it cannot mask a missing-answer failure. -/
theorem c10_page3_nav_iff (d : Dom) (provider : Option (List Experience))
    (hexp : (d.slots ("err-experience")).isSome = true) :
    (∃ d2, validatePage3 d provider = some (d2, some "page4.html")) ↔
      (¬getValue d ("licenseReq") = "" ∧
        (getValue d ("licenseReq") = "yes" → licenseChecksPass d = true) ∧
        expPass provider = true) := by
  simp only [validatePage3, getValue_clearError]
  by_cases hlr : getValue d ("licenseReq") = ""
  · simp only [hlr, ite_true]
    rw [if_neg (by decide : ¬("" : String) = "yes")]
    have hexp1 : (((showError (clearError d ("err-license")) ("err-license")
        ("Please answer the driver's license question."))).slots ("err-experience")).isSome =
        true := by
      rw [showError_slots_isSome, clearError_slots_isSome]
      exact hexp
    obtain ⟨d2, hv, -, -, -⟩ := validateWorkExperience_spec _ provider hexp1
    rw [hv]
    simp
  · by_cases hyes : getValue d ("licenseReq") = "yes"
    · simp only [hyes, ite_true]
      rw [if_neg (by decide : ¬("yes" : String) = "")]
      have hexp1 : (((validateLicenseDetails (clearError d ("err-license"))).1).slots
          ("err-experience")).isSome = true := by
        rw [validateLicenseDetails_slots_isSome, clearError_slots_isSome]
        exact hexp
      obtain ⟨d2, hv, -, -, -⟩ := validateWorkExperience_spec _ provider hexp1
      rw [hv, validateLicenseDetails_flag,
        licenseChecksPass_congr (clearError_controls d ("err-license"))]
      cases hep : expPass provider <;> cases hlc : licenseChecksPass d <;>
        simp [hyes, hep, hlc]
    · rw [if_neg hlr, if_neg hyes]
      have hexp1 : ((clearError d ("err-license")).slots ("err-experience")).isSome = true := by
        rw [clearError_slots_isSome]
        exact hexp
      obtain ⟨d2, hv, -, -, -⟩ := validateWorkExperience_spec _ provider hexp1
      rw [hv]
      cases hep : expPass provider <;> simp [hlr, hyes, hep]

theorem c10_page3_nav_iff_witness :
    ∃ d2, validatePage3 dom10w none = some (d2, some "page4.html") := by
  refine (c10_page3_nav_iff dom10w none (by decide)).mpr ⟨by decide, ?_, rfl⟩
  intro h
  exact absurd h (by decide)

/-- C1: submitApp always prevents the default action; on the reloaded
snapshot it alerts naming the first falsy key of the eleven required keys in
source order and leaves the page untouched; with all eleven truthy but a
falsy agree flag it alerts with the distinct agreement message and leaves
the page untouched; and only with all eleven and agree truthy does it
reveal the success indicator and disable the submit control.  The two alert
messages are distinct for every field name. -/
theorem c1_submit_gate (st : Store) (p : Page5) :
    (∀ i : Nat, i < submitRequired.length →
      truthy (loadData st) (submitRequired.getD i "") = false →
      (∀ j : Nat, j < i → truthy (loadData st) (submitRequired.getD j "") = true) →
      submitApp st p = ⟨true, some (missingFieldMsg (submitRequired.getD i "")), p⟩) ∧
    ((∀ k ∈ submitRequired, truthy (loadData st) k = true) →
      truthy (loadData st) ("agree") = false →
      submitApp st p = ⟨true, some agreeMsg, p⟩) ∧
    ((∀ k ∈ submitRequired, truthy (loadData st) k = true) →
      truthy (loadData st) ("agree") = true →
      submitApp st p = ⟨true, none,
        ⟨p.successHidden.map (fun _ => false), p.submitDisabled.map (fun _ => true)⟩⟩) ∧
    (∀ f, missingFieldMsg f ≠ agreeMsg) := by
  refine ⟨?_, ?_, ?_, ?_⟩
  · intro i hi hfalsy hprev
    have hg : submitRequired.getD i "" = submitRequired.get ⟨i, hi⟩ := by
      rw [List.getD_eq_getElem _ _ hi]
      rfl
    simp only [submitApp]
    rw [find?_eq_get_of_first (fun k => !(truthy (loadData st) k)) submitRequired i hi
      (by rw [← hg]; simpa using hfalsy)
      (fun j hj => by
        have hgj : submitRequired.getD j "" = submitRequired.get ⟨j, Nat.lt_trans hj hi⟩ := by
          rw [List.getD_eq_getElem _ _ (Nat.lt_trans hj hi)]
          rfl
        show (!(truthy (loadData st) (submitRequired.get ⟨j, Nat.lt_trans hj hi⟩))) = false
        rw [← hgj]
        simpa using hprev j hj)]
    rw [← hg]
  · intro hall hagree
    simp only [submitApp]
    rw [List.find?_eq_none.mpr (fun k hk => by simp [hall k hk])]
    simp [hagree]
  · intro hall hagree
    simp only [submitApp]
    rw [List.find?_eq_none.mpr (fun k hk => by simp [hall k hk])]
    simp [hagree]
  · intro f h
    have hd := congrArg String.data h
    simp only [missingFieldMsg, agreeMsg, String.data_append] at hd
    have h0 : (("Please complete all required fields before submitting.\n\nMissing or incomplete: " :
        String).data ++ f.data).getD 0 ' ' = 'P' := by
      rw [List.getD_append _ _ _ _ (by decide)]
      decide
    rw [hd] at h0
    exact absurd h0 (by decide)

theorem c1_submit_gate_witness :
    submitApp stD page5Init = ⟨true, some (missingFieldMsg ("position")), page5Init⟩ := by
  have hload : loadData stD = snapD := by decide
  have h := (c1_submit_gate stD page5Init).1 8 (by decide)
    (by rw [hload]; decide)
    (fun j hj => by
      rw [hload]
      interval_cases j <;> decide)
  exact h

/-- C8: saving any flat string/boolean mapping and loading it back returns
an equal mapping; loading from an absent store or an unparseable stored
string yields the empty mapping without failing; saving a missing argument
saves the empty mapping; and a failing storage write is swallowed, leaving
the store unchanged. -/
theorem c8_store_roundtrip :
    (∀ (m : Snapshot) (st : Store), (m.map Prod.fst).Nodup →
      loadData (saveData (some m) true st) = m) ∧
    loadData none = [] ∧
    (∀ s : String, parseObj s.data = none → loadData (some s) = []) ∧
    (∀ st : Store, saveData none true st = saveData (some []) true st) ∧
    (∀ (obj : Option Snapshot) (st : Store), saveData obj false st = st) := by
  refine ⟨?_, rfl, ?_, fun st => rfl, fun obj st => rfl⟩
  · intro m st _
    show loadData (some (String.mk (stringifyObj m))) = m
    have hne : ¬(String.mk (stringifyObj m) = "") := by
      intro h
      have hd : stringifyObj m = [] := congrArg String.data h
      rw [stringifyObj] at hd
      exact absurd hd (by simp)
    show (if String.mk (stringifyObj m) = "" then ([] : Snapshot)
      else match parseObj (String.mk (stringifyObj m)).data with
        | some m2 => m2
        | none => []) = m
    rw [if_neg hne]
    show (match parseObj (stringifyObj m) with
      | some m2 => m2
      | none => ([] : Snapshot)) = m
    rw [parseObj_stringify]
  · intro s hp
    by_cases hs : s = ""
    · show (if s = "" then ([] : Snapshot) else _) = []
      rw [if_pos hs]
    · show (if s = "" then ([] : Snapshot)
        else match parseObj s.data with
          | some m2 => m2
          | none => []) = []
      rw [if_neg hs, hp]

theorem c8_store_roundtrip_witness :
    ((m0.map Prod.fst).Nodup ∧ loadData (saveData (some m0) true none) = m0) ∧
    loadData (some ("oops")) = [] := by
  refine ⟨⟨by decide, c8_store_roundtrip.1 m0 none (by decide)⟩,
    c8_store_roundtrip.2.2.1 "oops" (by decide)⟩

end FormApp
